import Mathlib

/-!
Verification of the MCP HTTP bridge (`mcp_http_bridge.py`).

The bridge discovers a tool subprocess's capabilities from the first line it
prints, synthesizes one request schema per advertised tool, registers one POST
endpoint per tool, and on each request spawns a fresh subprocess, discards its
description line, writes one `tool-call` message and returns the `output` of
the `tool-result` line as the HTTP body.

Python dictionaries produced by `json.loads` are modelled as association lists
with pairwise-distinct keys (lookup takes the first match); `json.dumps`
followed by `json.loads` is modelled as the identity on the JSON value, so a
wire line is represented by the JSON document it carries (`Option Json`:
`none` is a line that fails to parse as JSON).
-/

namespace MCPBridge

/-- Model of a parsed JSON value (the result of Python's `json.loads`). -/
inductive Json where
  | str : String → Json
  | num : Int → Json
  | bool : Bool → Json
  | null : Json
  | arr : List Json → Json
  | obj : List (String × Json) → Json

/-- Dictionary lookup `d.get(key)` on the fields of a JSON object. -/
def lookupField : List (String × Json) → String → Option Json
  | [], _ => none
  | (k, v) :: rest, key => if k = key then some v else lookupField rest key

/-- Dictionary lookup on an arbitrary JSON value: `none` when the value is not
an object (where Python's `.get` would raise `AttributeError`) or when the key
is absent. -/
def jget : Json → String → Option Json
  | Json.obj fields, key => lookupField fields key
  | _, _ => none

-- Python's repr of a value parsed from JSON, as interpolated by the f-string
-- at line 164 of mcp_http_bridge.py ("Unexpected response: ..."):
-- single-quoted strings, True/False/None, braced dictionaries.
mutual

def pyRepr : Json → String
  | Json.str s => "\x27" ++ s ++ "\x27"
  | Json.num n => toString n
  | Json.bool true => "True"
  | Json.bool false => "False"
  | Json.null => "None"
  | Json.arr l => "[" ++ pyReprList l ++ "]"
  | Json.obj fields => "\x7b" ++ pyReprFields fields ++ "\x7d"

def pyReprList : List Json → String
  | [] => ""
  | [x] => pyRepr x
  | x :: y :: rest => pyRepr x ++ ", " ++ pyReprList (y :: rest)

def pyReprFields : List (String × Json) → String
  | [] => ""
  | [(k, v)] => "\x27" ++ k ++ "\x27: " ++ pyRepr v
  | (k, v) :: p :: rest =>
      "\x27" ++ k ++ "\x27: " ++ pyRepr v ++ ", " ++ pyReprFields (p :: rest)

end

/-- Checks whether `needle` is a leading run of `hay`. -/
def leadsWith : List Char → List Char → Bool
  | _, [] => true
  | [], _ :: _ => false
  | a :: hay, b :: needle => a == b && leadsWith hay needle

/-- Checks whether `needle` occurs contiguously inside `hay`. -/
def hasRun : List Char → List Char → Bool
  | [], needle => needle.isEmpty
  | a :: hay, needle => leadsWith (a :: hay) needle || hasRun hay needle

/-- Substring containment test on strings. -/
def strContains (s sub : String) : Bool := hasRun s.data sub.data

/-- Protocol messages of the stdio wire protocol (spec §6): the
`tool-description` wrapper, `tool-call`, `tool-result` and `error`. -/
inductive Message where
  | description : List Json → Message
  | call : String → List (String × Json) → Message
  | result : Json → Message
  | error : String → Message

/-- Encoding of a message as the JSON document of its wire line, exactly the
dictionaries the code builds: the `tool-call` dictionary at lines 143-147 of
`mcp_http_bridge.py`, and the `tool-description` / `tool-result` / `error`
dictionaries printed by the tool servers (`weather-server/server.py`,
`time-tool/tool.py`). The newline added by `json.dumps(...) + "\n"` frames the
document and carries no content, so it is elided here. -/
def encode : Message → Json
  | Message.description tools =>
      Json.obj [("type", Json.str "tool-description"), ("tools", Json.arr tools)]
  | Message.call tool input =>
      Json.obj [("type", Json.str "tool-call"), ("tool", Json.str tool),
                ("input", Json.obj input)]
  | Message.result output =>
      Json.obj [("type", Json.str "tool-result"), ("output", output)]
  | Message.error e =>
      Json.obj [("type", Json.str "error"), ("error", Json.str e)]

/-- Modelled from the spec: the Protocol Codec's `decode` (§4.1). The source
inlines its decoding at each consumption site (lines 90-91 and 156-164 of
`mcp_http_bridge.py`) and never assembles a single dispatcher, so the
spec-described decoder — parse one line, dispatch on the `type` field into one
of the four message kinds, `ProtocolError` (here the `Except.error` branch) on
a missing or unrecognized `type` — is defined from the spec's words. -/
def decode : Json → Except String Message
  | Json.obj fields =>
      match lookupField fields "type" with
      | some (Json.str "tool-description") =>
          match lookupField fields "tools" with
          | some (Json.arr tools) => Except.ok (Message.description tools)
          | _ => Except.error "malformed tool-description"
      | some (Json.str "tool-call") =>
          match lookupField fields "tool", lookupField fields "input" with
          | some (Json.str tool), some (Json.obj input) =>
              Except.ok (Message.call tool input)
          | _, _ => Except.error "malformed tool-call"
      | some (Json.str "tool-result") =>
          match lookupField fields "output" with
          | some output => Except.ok (Message.result output)
          | none => Except.error "malformed tool-result"
      | some (Json.str "error") =>
          match lookupField fields "error" with
          | some (Json.str e) => Except.ok (Message.error e)
          | _ => Except.error "malformed error"
      | some (Json.str ty) => Except.error ("unknown type: " ++ ty)
      | _ => Except.error "missing type"
  | _ => Except.error "not an object"

end MCPBridge

namespace MCPBridge

/-- The endpoint's possible outcomes, lines 117-167 of `mcp_http_bridge.py`:
an HTTP 200 whose body is the `output` object; an `HTTPException` with a
status and a detail string; an uncaught Python exception (served by the
framework as a bare 500); or the busy-wait spinning forever. -/
inductive EndpointResult where
  | ok : Json → EndpointResult
  | httpError : Nat → String → EndpointResult
  | crash : EndpointResult
  | hangs : EndpointResult

/-- HTTP status of an endpoint outcome: 200 for a returned body, the carried
status for an `HTTPException`, 500 for an uncaught exception, none when the
endpoint never returns. -/
def statusOf : EndpointResult → Option Nat
  | EndpointResult.ok _ => some 200
  | EndpointResult.httpError s _ => some s
  | EndpointResult.crash => some 500
  | EndpointResult.hangs => none

/-- Handling of the result line, lines 155-167 of `mcp_http_bridge.py`:
a line that is not JSON raises `HTTPException(500, "Invalid response from
tool")`; a parsed dictionary whose `type` is not `"tool-result"` or which
lacks `"output"` raises `HTTPException(500, f"Unexpected response: {result}")`;
otherwise `result["output"]` is returned (HTTP 200). A parsed non-dictionary
makes `result.get("type")` raise `AttributeError` (crash). -/
def handleResultLine : Option Json → EndpointResult
  | none => EndpointResult.httpError 500 "Invalid response from tool"
  | some (Json.obj fields) =>
      match lookupField fields "type", lookupField fields "output" with
      | some (Json.str "tool-result"), some output => EndpointResult.ok output
      | some (Json.str "tool-result"), none =>
          EndpointResult.httpError 500
            ("Unexpected response: " ++ pyRepr (Json.obj fields))
      | _, _ =>
          EndpointResult.httpError 500
            ("Unexpected response: " ++ pyRepr (Json.obj fields))
  | some _ => EndpointResult.crash

end MCPBridge

namespace MCPBridge

/-- The busy-wait loop `while not stdout_buffer: pass` (lines 85-86, 138-139
and 152-153 of `mcp_http_bridge.py`). `bufferAt n` is the buffer contents the
loop observes at its n-th check (the buffer is filled by the `read_lines`
reader thread); `busyWait bufferAt fuel` is the nonempty buffer observed if
the loop has exited within `fuel` checks, and `none` if it is still spinning
after `fuel` checks. The source loop has no bound of its own: `fuel` only
indexes how long the execution has been observed. -/
def busyWait (bufferAt : Nat → List String) : Nat → Option (List String)
  | 0 => none
  | n + 1 =>
      match busyWait bufferAt n with
      | some b => some b
      | none => if (bufferAt n).isEmpty then none else some (bufferAt n)

/-- Buffer evolution of a subprocess that never emits a line: the buffer is
empty at every observation. -/
def noLineEver : Nat → List String := fun _ => []

/-- Outcome of the discovery step of `create_app`, lines 84-96 of
`mcp_http_bridge.py`, as a function of the first buffered line (represented by
its parse: `none` is a line `json.loads` rejects). -/
inductive DescribeOutcome where
  | runtimeError : String → DescribeOutcome
  | crash : DescribeOutcome
  | described : List Json → DescribeOutcome

/-- Discovery's handling of the first line: a line that is not JSON raises
`RuntimeError("Invalid tool-description: ...")` after killing the subprocess
(lines 92-94); a parsed dictionary yields `desc.get("tools", [])` (line 91) —
the `tools` field when present, the empty list otherwise — and the subprocess
is killed (line 96); a parsed non-dictionary makes `desc.get` raise an
uncaught `AttributeError`, and a `tools` value that is not a list makes the
registration loop raise (crash). -/
def handleFirstLine : Option Json → DescribeOutcome
  | none => DescribeOutcome.runtimeError "Invalid tool-description"
  | some (Json.obj fields) =>
      match lookupField fields "tools" with
      | some (Json.arr tools) => DescribeOutcome.described tools
      | none => DescribeOutcome.described []
      | some _ => DescribeOutcome.crash
  | some _ => DescribeOutcome.crash

/-- Whether discovery raised or crashed (true) or proceeded to registration
(false). -/
def DescribeOutcome.failed : DescribeOutcome → Bool
  | DescribeOutcome.runtimeError _ => true
  | DescribeOutcome.crash => true
  | DescribeOutcome.described _ => false

/-- One advertised tool as consumed by the registration loop (lines 99-102 of
`mcp_http_bridge.py`): `tool["name"]`, `tool["input_schema"]`,
`tool["output_schema"]`. -/
structure ToolRec where
  name : String
  input_schema : Json
  output_schema : Json

/-- Parses one element of the `tools` array into the fields the loop reads:
`none` models the uncaught `KeyError`/`TypeError` when the element is not a
dictionary with a string `name` and the two schema fields. -/
def parseTool : Json → Option ToolRec
  | Json.obj fields =>
      match lookupField fields "name", lookupField fields "input_schema",
            lookupField fields "output_schema" with
      | some (Json.str n), some i, some o => some ⟨n, i, o⟩
      | _, _, _ => none
  | _ => none

/-- Filtering of the declared input properties, lines 105-108 of
`mcp_http_bridge.py`: a property whose schema dictionary has `"type":"string"`
becomes a required `str` field of the request model; any other property is
skipped without error. A property schema that is not a dictionary makes
`prop_schema.get` raise (none = crash). -/
def filterStringProps : List (String × Json) → Option (List String)
  | [] => some []
  | (name, Json.obj propFields) :: rest =>
      match filterStringProps rest with
      | none => none
      | some r =>
          match lookupField propFields "type" with
          | some (Json.str "string") => some (name :: r)
          | _ => some r
  | (_, _) :: _ => none

/-- Synthesized input property names for one tool:
`input_schema.get("properties", {})` (line 106) filtered to the string-typed
ones. A non-dictionary `input_schema` or `properties` value raises (none). -/
def synthInputProps (input_schema : Json) : Option (List String) :=
  match input_schema with
  | Json.obj fields =>
      match lookupField fields "properties" with
      | none => some []
      | some (Json.obj props) => filterStringProps props
      | some _ => none
  | _ => none

/-- One registered endpoint: the route `@app.post(f"/{tool_name}")` (line 116)
with the tool name captured per-iteration by the default argument
`tool=tool_name` (line 117) and the synthesized request model's required
string fields. -/
structure Route where
  method : String
  path : String
  tool : String
  requiredProps : List String

/-- Registration of one tool, lines 104-117 of `mcp_http_bridge.py`:
synthesize the request model's fields and register the POST route; `none`
models an uncaught exception during synthesis. -/
def registerTool (t : ToolRec) : Option Route :=
  match synthInputProps t.input_schema with
  | none => none
  | some props =>
      some { method := "POST", path := "/" ++ t.name, tool := t.name,
             requiredProps := props }

/-- Registration loop over the advertised tools (line 99). -/
def registerTools (ts : List ToolRec) : Option (List Route) :=
  ts.mapM registerTool

/-- Outcome of `create_app` as a function of the first line the bootstrap
subprocess prints. -/
inductive AppOutcome where
  | startupError : String → AppOutcome
  | crash : AppOutcome
  | app : List Route → AppOutcome

/-- The `create_app` factory, lines 41-169 of `mcp_http_bridge.py`: discovery
of the tool description from the first line, then one registered route per
advertised tool. -/
def create_app (firstLine : Option Json) : AppOutcome :=
  match handleFirstLine firstLine with
  | DescribeOutcome.runtimeError m => AppOutcome.startupError m
  | DescribeOutcome.crash => AppOutcome.crash
  | DescribeOutcome.described tools =>
      match tools.mapM (fun tj => (parseTool tj).bind registerTool) with
      | none => AppOutcome.crash
      | some routes => AppOutcome.app routes

end MCPBridge

namespace MCPBridge

/-- Observable interactions of one endpoint call with its subprocess. -/
inductive Effect where
  | spawn : Effect
  | write : Json → Effect

/-- Modelled from the spec: request-body validation (§4.5) against the
synthesized request model. The model itself is built in `mcp_http_bridge.py`
(lines 110-113), but the validation of an incoming body against it is
performed by the FastAPI/pydantic framework, which is outside the repository:
per the spec, each declared string property is a required string field
(missing or non-string bindings are a `ValidationError`), and undeclared body
keys are not part of the model. Returns the bound fields in declaration
order, or `none` on a validation failure. -/
def validateBody (req : List String) (body : Json) : Option (List (String × String)) :=
  match body with
  | Json.obj _ =>
      req.mapM (fun name =>
        match jget body name with
        | some (Json.str s) => some (name, s)
        | _ => none)
  | _ => none

/-- The `tool-call` dictionary built at lines 143-147 of `mcp_http_bridge.py`
from the endpoint's captured tool name and the validated request fields. -/
def mkToolCall (tool : String) (fields : List (String × String)) : Json :=
  encode (Message.call tool (fields.map (fun p => (p.1, Json.str p.2))))

/-- The endpoint body `tool_endpoint`, lines 117-167 of `mcp_http_bridge.py`,
as a function of the captured tool name, the validated request fields and the
lines this call's own freshly spawned subprocess writes (in order, each
represented by its parse). The first buffered line is popped and discarded
unparsed (line 140), the `tool-call` line is written, and the next buffered
line is the result. If the needed line never arrives the busy-wait spins
forever (`hangs`). Also returns the subprocess interactions performed. -/
def tool_endpoint (tool : String) (validated : List (String × String))
    (stdout : List (Option Json)) : EndpointResult × List Effect :=
  match stdout with
  | [] => (EndpointResult.hangs, [Effect.spawn])
  | _ :: rest =>
      match rest with
      | [] => (EndpointResult.hangs,
               [Effect.spawn, Effect.write (mkToolCall tool validated)])
      | resultLine :: _ =>
          (handleResultLine resultLine,
           [Effect.spawn, Effect.write (mkToolCall tool validated)])

/-- Outcome of one HTTP request to a registered route: the framework rejects
an invalid body with HTTP 422 before the endpoint body runs, otherwise the
endpoint body's outcome stands. -/
inductive HttpOutcome where
  | validationError : HttpOutcome
  | response : EndpointResult → HttpOutcome

/-- HTTP status of a request outcome: 422 for a validation failure, else the
endpoint's status. -/
def httpStatusOf : HttpOutcome → Option Nat
  | HttpOutcome.validationError => some 422
  | HttpOutcome.response r => statusOf r

/-- One full request to a registered route: validation against the route's
synthesized model, then the endpoint body. Returns the outcome and the
subprocess interactions performed. -/
def handle_request (route : Route) (body : Json) (stdout : List (Option Json)) :
    HttpOutcome × List Effect :=
  match validateBody route.requiredProps body with
  | none => (HttpOutcome.validationError, [])
  | some fields =>
      let r := tool_endpoint route.tool fields stdout
      (HttpOutcome.response r.1, r.2)

end MCPBridge

namespace MCPBridge

/-!
Interleaving model for two concurrent endpoint calls. Each in-flight call owns
a fresh subprocess, a local `stdout_buffer` and a local reader thread (lines
122-135 of `mcp_http_bridge.py`): the joint state is a pair of disjoint
per-call states, and a scheduler interleaves reader steps (the `read_lines`
thread appending the subprocess's next emitted line to the call's own buffer)
with bridge steps (one productive iteration of the endpoint body: popping the
buffered description, or popping the buffered result line).
-/

/-- Progress of one in-flight endpoint call through its body. -/
inductive Phase where
  | waitDesc : Phase
  | waitResult : Phase
  | done : EndpointResult → Phase

/-- State of one in-flight call: the lines its own subprocess has yet to
emit, its own `stdout_buffer`, and how far its endpoint body has run. -/
structure CallState where
  pending : List (Option Json)
  buffer : List (Option Json)
  phase : Phase

/-- Initial state of a call whose subprocess will emit `emitted`. -/
def initCall (emitted : List (Option Json)) : CallState :=
  ⟨emitted, [], Phase.waitDesc⟩

/-- One step of the call's `read_lines` reader thread: move the subprocess's
next emitted line to the end of the call's buffer (lines 33-39). -/
def readerStep (c : CallState) : CallState :=
  match c.pending with
  | [] => c
  | l :: rest => { c with pending := rest, buffer := c.buffer ++ [l] }

/-- One productive step of the endpoint body: with an empty buffer the
busy-wait spins (no state change); otherwise the description line is popped
and discarded (line 140), or the result line is popped and handled
(lines 155-167). -/
def bridgeStep (c : CallState) : CallState :=
  match c.phase, c.buffer with
  | Phase.waitDesc, [] => c
  | Phase.waitDesc, _ :: rest => { c with buffer := rest, phase := Phase.waitResult }
  | Phase.waitResult, [] => c
  | Phase.waitResult, l :: rest =>
      { c with buffer := rest, phase := Phase.done (handleResultLine l) }
  | Phase.done _, _ => c

/-- A scheduling choice: which call's reader or bridge logic runs next. -/
inductive SchedStep where
  | readerA : SchedStep
  | bridgeA : SchedStep
  | readerB : SchedStep
  | bridgeB : SchedStep

/-- One interleaved step of the two in-flight calls. -/
def jointStep : SchedStep → CallState × CallState → CallState × CallState
  | SchedStep.readerA, (a, b) => (readerStep a, b)
  | SchedStep.bridgeA, (a, b) => (bridgeStep a, b)
  | SchedStep.readerB, (a, b) => (a, readerStep b)
  | SchedStep.bridgeB, (a, b) => (a, bridgeStep b)

/-- Run a whole schedule of interleaved steps. -/
def runSched : List SchedStep → CallState × CallState → CallState × CallState
  | [], st => st
  | s :: rest, st => runSched rest (jointStep s st)

/-- The sequential meaning of one call: its response is fully determined by
the lines its own subprocess emits — the second emitted line, handled by
`handleResultLine` (the first is the discarded description); `none` when
fewer than two lines are ever emitted (the call can only hang). -/
def pureOutcome : List (Option Json) → Option EndpointResult
  | _ :: resultLine :: _ => some (handleResultLine resultLine)
  | _ => none

/-- Consistency of one call's state with the emission list it started from:
the not-yet-consumed lines (buffered or still pending) are exactly the
emissions after those its phase records as consumed, and a finished call's
response is the handling of the second emission. -/
def consistent (e : List (Option Json)) (c : CallState) : Prop :=
  match c.phase with
  | Phase.waitDesc => c.buffer ++ c.pending = e
  | Phase.waitResult => ∃ d, e = d :: (c.buffer ++ c.pending)
  | Phase.done r => ∃ d rl rest, e = d :: rl :: rest ∧ r = handleResultLine rl

end MCPBridge

namespace MCPBridge

/-- Helper: a busy-wait over a buffer that is empty at every observation has
not exited after any number of checks. -/
lemma busyWait_eq_none_of_empty (bufferAt : Nat → List String)
    (h : ∀ n, bufferAt n = []) : ∀ fuel, busyWait bufferAt fuel = none := by
  intro fuel
  induction fuel with
  | zero => rfl
  | succ n ih => simp [busyWait, ih, h n]

/-- C1, counterexample: with a subprocess that never emits a line, the
discovery/result wait never exits — in particular it does not terminate with
a `TimeoutError` within any bound (the bridge has no timeout at all: the wait
is `while not stdout_buffer: pass`). -/
theorem C1_counterexample : ¬ ∃ fuel, (busyWait noLineEver fuel).isSome = true := by
  rintro ⟨fuel, h⟩
  rw [busyWait_eq_none_of_empty noLineEver (fun _ => rfl) fuel] at h
  exact Bool.noConfusion h

/-- C1, amended: if the tool subprocess never emits a line, the bridge's wait
(the loop `while not stdout_buffer: pass`, during `create_app` and inside
each endpoint's call cycle) never terminates: it is still spinning after
every finite number of checks, and no `TimeoutError` is ever raised. -/
theorem C1_no_timeout_spin_forever (bufferAt : Nat → List String)
    (h : ∀ n, bufferAt n = []) (fuel : Nat) : busyWait bufferAt fuel = none :=
  busyWait_eq_none_of_empty bufferAt h fuel

/-- C1, witness: the wait over the never-emitting subprocess is still
spinning after 100 checks. -/
theorem C1_witness : busyWait noLineEver 100 = none :=
  C1_no_timeout_spin_forever noLineEver (fun _ => rfl) 100

/-- First line used against C2: a syntactically valid JSON object that is not
a capability description (it is a `tool-result` message). -/
def c2FirstLine : Json :=
  Json.obj [("type", Json.str "tool-result"), ("output", Json.obj [])]

/-- C2, counterexample: a first line that decodes as valid JSON but is not a
capability description is not rejected: discovery neither raises nor crashes —
`desc.get("tools", [])` silently yields the empty tool list and `create_app`
proceeds (registering no endpoints), contradicting the claim that any
non-description first line is a fatal `ProtocolError`. -/
theorem C2_counterexample :
    handleFirstLine (some c2FirstLine) = DescribeOutcome.described []
    ∧ (handleFirstLine (some c2FirstLine)).failed = false
    ∧ create_app (some c2FirstLine) = AppOutcome.app [] :=
  ⟨rfl, rfl, rfl⟩

/-- C2, amended: only a first line that fails to parse as JSON is fatal (a
`RuntimeError` is raised after the subprocess is killed). A first line that
parses as a JSON object is accepted whether or not it is a capability
description: its `tools` field drives registration when present and defaults
to the empty list when absent, so a non-description JSON object yields a
bridge with no endpoints rather than an error. -/
theorem C2_first_line_handling :
    handleFirstLine none = DescribeOutcome.runtimeError "Invalid tool-description"
    ∧ (∀ fields tools, lookupField fields "tools" = some (Json.arr tools) →
        handleFirstLine (some (Json.obj fields)) = DescribeOutcome.described tools)
    ∧ (∀ fields, lookupField fields "tools" = none →
        handleFirstLine (some (Json.obj fields)) = DescribeOutcome.described []) := by
  refine ⟨rfl, ?_, ?_⟩
  · intro fields tools h
    simp [handleFirstLine, h]
  · intro fields h
    simp [handleFirstLine, h]

/-- C2, witness: a genuine description first line with an empty tool list is
accepted, and an object without a `tools` field is accepted as well. -/
theorem C2_witness :
    handleFirstLine (some (Json.obj [("type", Json.str "tool-description"),
        ("tools", Json.arr [])])) = DescribeOutcome.described []
    ∧ handleFirstLine (some (Json.obj [("greeting", Json.str "hi")]))
        = DescribeOutcome.described [] :=
  ⟨C2_first_line_handling.2.1 _ [] rfl, C2_first_line_handling.2.2 _ rfl⟩

/-- Input schema used against C3: one declared property `count` whose type is
`integer`. -/
def c3Schema : Json :=
  Json.obj [("type", Json.str "object"),
            ("properties", Json.obj [("count",
                Json.obj [("type", Json.str "integer")])]),
            ("required", Json.arr [Json.str "count"])]

/-- Tool used against C3: tool `add` declaring the non-string property. -/
def c3Tool : ToolRec := ⟨"add", c3Schema, Json.obj []⟩

/-- Description line advertising only the tool used against C3. -/
def c3Desc : Json :=
  encode (Message.description [Json.obj [("name", Json.str "add"),
    ("input_schema", c3Schema), ("output_schema", Json.obj [])]])

/-- C3, counterexample: startup on a description whose only tool declares a
non-string (`integer`) input property does not fail — no `SchemaError` is
raised and the bridge does register an HTTP endpoint `/add` for that tool;
the non-string property is silently dropped from the synthesized request
model (`requiredProps = []`). -/
theorem C3_counterexample :
    create_app (some c3Desc)
      = AppOutcome.app [{ method := "POST", path := "/add", tool := "add",
                          requiredProps := [] }]
    ∧ registerTool c3Tool
      = some { method := "POST", path := "/add", tool := "add",
               requiredProps := [] } :=
  ⟨rfl, rfl⟩

/-- Helper: every name produced by the string filter is a declared property
whose schema dictionary has type `string`. -/
lemma mem_filterStringProps {props : List (String × Json)} {l : List String}
    (h : filterStringProps props = some l) :
    ∀ x ∈ l, ∃ ps, (x, ps) ∈ props ∧ jget ps "type" = some (Json.str "string") := by
  induction props generalizing l with
  | nil =>
      simp only [filterStringProps, Option.some.injEq] at h
      subst h
      simp
  | cons p rest ih =>
      obtain ⟨name, ps⟩ := p
      cases ps with
      | obj propFields =>
          simp only [filterStringProps] at h
          split at h
          · exact absurd h (by simp)
          · rename_i r hrest
            split at h
            · rename_i hty
              simp only [Option.some.injEq] at h
              subst h
              intro x hx
              rcases List.mem_cons.mp hx with hx | hx
              · subst hx
                exact ⟨Json.obj propFields, List.mem_cons_self _ _,
                       by simp [jget, hty]⟩
              · obtain ⟨ps', hmem, hstr'⟩ := ih hrest x hx
                exact ⟨ps', List.mem_cons_of_mem _ hmem, hstr'⟩
            · simp only [Option.some.injEq] at h
              subst h
              intro x hx
              obtain ⟨ps', hmem, hstr'⟩ := ih hrest x hx
              exact ⟨ps', List.mem_cons_of_mem _ hmem, hstr'⟩
      | str s => exact absurd h (by simp [filterStringProps])
      | num n => exact absurd h (by simp [filterStringProps])
      | bool b => exact absurd h (by simp [filterStringProps])
      | null => exact absurd h (by simp [filterStringProps])
      | arr a => exact absurd h (by simp [filterStringProps])

/-- Helper: in a property dictionary with pairwise-distinct keys (as produced
by `json.loads`), a key determines its value. -/
lemma assoc_unique {props : List (String × Json)} {k : String} {v1 v2 : Json}
    (hnd : (props.map Prod.fst).Nodup)
    (h1 : (k, v1) ∈ props) (h2 : (k, v2) ∈ props) : v1 = v2 := by
  induction props with
  | nil => exact absurd h1 (List.not_mem_nil _)
  | cons p rest ih =>
      simp only [List.map_cons, List.nodup_cons] at hnd
      rcases List.mem_cons.mp h1 with h1 | h1
      · rcases List.mem_cons.mp h2 with h2 | h2
        · exact (Prod.ext_iff.mp (h1.trans h2.symm)).2
        · exfalso
          apply hnd.1
          rw [← h1]
          show (k, v2).1 ∈ List.map Prod.fst rest
          exact List.mem_map_of_mem Prod.fst h2
      · rcases List.mem_cons.mp h2 with h2 | h2
        · exfalso
          apply hnd.1
          rw [← h2]
          show (k, v1).1 ∈ List.map Prod.fst rest
          exact List.mem_map_of_mem Prod.fst h1
        · exact ih hnd.2 h1 h2

/-- Helper: a successfully registered route is the POST route at `/` plus the
tool's name with the tool name captured. -/
lemma registerTool_fields {t : ToolRec} {r : Route} (h : registerTool t = some r) :
    r.method = "POST" ∧ r.path = "/" ++ t.name ∧ r.tool = t.name := by
  simp only [registerTool] at h
  split at h
  · exact absurd h (by simp)
  · simp only [Option.some.injEq] at h
    subst h
    exact ⟨rfl, rfl, rfl⟩

/-- Helper: a declared property whose schema is not string-typed never makes
it into the synthesized request model of a registered route. -/
lemma registerTool_nonstring_not_mem {t : ToolRec} {props : List (String × Json)}
    {r : Route}
    (hprops : jget t.input_schema "properties" = some (Json.obj props))
    (hnd : (props.map Prod.fst).Nodup)
    (hr : registerTool t = some r) :
    ∀ p ∈ props, jget p.2 "type" ≠ some (Json.str "string") →
      p.1 ∉ r.requiredProps := by
  cases hschema : t.input_schema with
  | obj fields =>
      rw [hschema] at hprops
      simp only [jget] at hprops
      simp only [registerTool, synthInputProps, hschema, hprops] at hr
      split at hr
      · exact absurd hr (by simp)
      · rename_i props' hfilter
        simp only [Option.some.injEq] at hr
        subst hr
        intro p hp hnotstr hmem
        obtain ⟨ps', hmem', hstr⟩ := mem_filterStringProps hfilter p.1 hmem
        have hv : ps' = p.2 := assoc_unique hnd hmem' (by simpa using hp)
        rw [hv] at hstr
        exact hnotstr hstr
  | str s => rw [hschema] at hprops; exact absurd hprops (by simp [jget])
  | num n => rw [hschema] at hprops; exact absurd hprops (by simp [jget])
  | bool b => rw [hschema] at hprops; exact absurd hprops (by simp [jget])
  | null => rw [hschema] at hprops; exact absurd hprops (by simp [jget])
  | arr a => rw [hschema] at hprops; exact absurd hprops (by simp [jget])

/-- C3, amended: a tool declaring a non-string input property does not fail
startup: no `SchemaError` is raised — whenever registration completes, the
endpoint is registered (POST at `/` plus the tool name) and every non-string
declared property is silently omitted from the synthesized request model
rather than rejected. -/
theorem C3_nonstring_silently_dropped (t : ToolRec) (props : List (String × Json))
    (r : Route)
    (hprops : jget t.input_schema "properties" = some (Json.obj props))
    (hnd : (props.map Prod.fst).Nodup)
    (hr : registerTool t = some r) :
    r.method = "POST" ∧ r.path = "/" ++ t.name ∧
    ∀ p ∈ props, jget p.2 "type" ≠ some (Json.str "string") →
      p.1 ∉ r.requiredProps :=
  ⟨(registerTool_fields hr).1, (registerTool_fields hr).2.1,
   registerTool_nonstring_not_mem hprops hnd hr⟩

/-- C3, witness: for the concrete tool `add` declaring the integer property
`count`, registration succeeds and `count` is absent from the synthesized
request model. -/
theorem C3_witness :
    "count" ∉ ({ method := "POST", path := "/add", tool := "add",
                 requiredProps := [] } : Route).requiredProps :=
  (C3_nonstring_silently_dropped c3Tool
      [("count", Json.obj [("type", Json.str "integer")])]
      { method := "POST", path := "/add", tool := "add", requiredProps := [] }
      rfl (by simp) rfl).2.2
    ("count", Json.obj [("type", Json.str "integer")]) (by simp)
    (by simp [jget, lookupField])

/-- Wire line used against C5: the error message the subprocess emits. -/
def boomJson : Json := encode (Message.error "boom")

/-- Detail string the endpoint produces for the error line of C5. -/
def boomDetail : String := "Unexpected response: " ++ pyRepr boomJson

/-- C5: for every call whose subprocess answers
`\x7b"type":"error","error":"boom"\x7d`, the endpoint raises
`HTTPException(500, ...)` whose detail contains the string `boom` — a failure
response, never HTTP 200 with an empty output. -/
theorem C5_error_message_surfaced (tool : String) (fields : List (String × String))
    (d : Option Json) (rest : List (Option Json)) :
    (tool_endpoint tool fields (d :: some boomJson :: rest)).1
        = EndpointResult.httpError 500 boomDetail
    ∧ strContains boomDetail "boom" = true
    ∧ statusOf ((tool_endpoint tool fields (d :: some boomJson :: rest)).1)
        = some 500 := by
  refine ⟨rfl, ?_, rfl⟩
  rfl

/-- Helper: binding the required fields fails as soon as one required name
has no string binding in the body. -/
lemma mapM_requiredField_none (body : Json) (name : String)
    (hbad : ∀ s, jget body name ≠ some (Json.str s)) :
    ∀ req : List String, name ∈ req →
      req.mapM (fun n =>
        match jget body n with
        | some (Json.str s) => some (n, s)
        | _ => none) = none := by
  intro req
  induction req with
  | nil => intro h; exact absurd h (List.not_mem_nil _)
  | cons a rest ih =>
      intro hmem
      rw [List.mapM_cons]
      rcases List.mem_cons.mp hmem with h | h
      · subst h
        have hz : (match jget body name with
            | some (Json.str s) => some (name, s)
            | _ => none) = (none : Option (String × String)) := by
          cases hj : jget body name with
          | none => rfl
          | some v =>
              cases v with
              | str s => exact absurd hj (hbad s)
              | num n => rfl
              | bool b => rfl
              | null => rfl
              | arr l => rfl
              | obj o => rfl
        simp [hz]
      · cases hfa : (match jget body a with
            | some (Json.str s) => some (a, s)
            | _ => none) with
        | none => simp [hfa]
        | some x =>
            rw [ih h]
            rfl

/-- Helper: validation fails whenever some required name is missing from the
body or bound to a non-string value. -/
lemma validateBody_none_of_missing {req : List String} {body : Json} {name : String}
    (hmem : name ∈ req) (hbad : ∀ s, jget body name ≠ some (Json.str s)) :
    validateBody req body = none := by
  cases body with
  | obj fields =>
      simp only [validateBody]
      exact mapM_requiredField_none (Json.obj fields) name hbad req hmem
  | str s => rfl
  | num n => rfl
  | bool b => rfl
  | null => rfl
  | arr l => rfl

/-- C6: a request body missing one of the route's required string fields (or
binding it to a non-string value) fails validation: the outcome is the
`ValidationError` mapped to HTTP 422, and no subprocess interaction (spawn or
write) has happened. -/
theorem C6_validation_before_spawn (route : Route) (body : Json)
    (stdout : List (Option Json)) (name : String)
    (hmem : name ∈ route.requiredProps)
    (hbad : ∀ s, jget body name ≠ some (Json.str s)) :
    handle_request route body stdout = (HttpOutcome.validationError, [])
    ∧ httpStatusOf (handle_request route body stdout).1 = some 422 := by
  have hv : validateBody route.requiredProps body = none :=
    validateBody_none_of_missing hmem hbad
  constructor
  · simp [handle_request, hv]
  · simp [handle_request, hv, httpStatusOf]

/-- Route used as the C6 witness: the `echo` tool with required field `msg`. -/
def echoRoute : Route :=
  { method := "POST", path := "/echo", tool := "echo", requiredProps := ["msg"] }

/-- C6, witness: a request to `/echo` whose body lacks `msg` is rejected with
422 and touches no subprocess. -/
theorem C6_witness :
    handle_request echoRoute (Json.obj [("other", Json.str "hi")]) []
      = (HttpOutcome.validationError, [])
    ∧ httpStatusOf (handle_request echoRoute (Json.obj [("other", Json.str "hi")]) []).1
      = some 422 :=
  C6_validation_before_spawn echoRoute (Json.obj [("other", Json.str "hi")]) []
    "msg" (by simp [echoRoute]) (by simp [jget, lookupField])

/-- Helper: the registration loop registers the routes positionally — tool
names, paths and methods line up with the advertised tools. -/
lemma registerTools_maps {ts : List ToolRec} {rs : List Route}
    (h : registerTools ts = some rs) :
    rs.map Route.tool = ts.map ToolRec.name
    ∧ rs.map Route.path = ts.map (fun t => "/" ++ t.name)
    ∧ ∀ r ∈ rs, r.method = "POST" := by
  induction ts generalizing rs with
  | nil =>
      simp only [registerTools, List.mapM_nil, Option.pure_def, Option.some.injEq] at h
      subst h
      simp
  | cons t rest ih =>
      simp only [registerTools, List.mapM_cons] at h
      cases hrt : registerTool t with
      | none => rw [hrt] at h; exact absurd h (by simp)
      | some r0 =>
          rw [hrt] at h
          cases hrest : rest.mapM registerTool with
          | none => rw [hrest] at h; exact absurd h (by simp)
          | some rs0 =>
              rw [hrest] at h
              have hrs : rs = r0 :: rs0 := by
                cases h
                rfl
              subst hrs
              obtain ⟨hm, hp, ha⟩ := ih hrest
              obtain ⟨f1, f2, f3⟩ := registerTool_fields hrt
              refine ⟨?_, ?_, ?_⟩
              · simp [hm, f3]
              · simp [hp, f2]
              · intro r hr
                rcases List.mem_cons.mp hr with h | h
                · subst h; exact f1
                · exact ha r h

/-- Helper: filtering by a projected key has the same length as filtering the
projections. -/
lemma filter_length_map {α : Type} (f : α → String) (l : List α) (x : String) :
    (l.filter (fun a => f a = x)).length
      = ((l.map f).filter (fun y => y = x)).length := by
  induction l with
  | nil => rfl
  | cons a rest ih =>
      by_cases h : f a = x
      · simp [List.filter_cons, h, ih]
      · simp [List.filter_cons, h, ih]

/-- Helper: in a duplicate-free list a present element is matched by exactly
one position. -/
lemma count_filter_eq_one {l : List String} {x : String} (hnd : l.Nodup)
    (hmem : x ∈ l) : (l.filter (fun y => y = x)).length = 1 := by
  induction l with
  | nil => exact absurd hmem (List.not_mem_nil _)
  | cons a rest ih =>
      simp only [List.nodup_cons] at hnd
      rcases List.mem_cons.mp hmem with h | h
      · subst h
        have hrest : rest.filter (fun y => y = x) = [] := by
          rw [List.filter_eq_nil_iff]
          intro y hy
          simp only [decide_eq_true_eq]
          intro hyx
          exact hnd.1 (hyx ▸ hy)
        simp [List.filter_cons, hrest]
      · have hne : ¬(a = x) := fun hax => hnd.1 (hax ▸ h)
        simp [List.filter_cons, hne, ih hnd.2 h]

/-- C7: for distinct advertised tool names, registration produces one POST
endpoint per discovered tool at `/` plus the tool's name (positionally, and
exactly one route carries each tool), and a successful call — the subprocess
answers with a `tool-result` — yields HTTP 200 whose body is exactly the
`output` object of that message, unmodified. -/
theorem C7_one_endpoint_per_tool (ts : List ToolRec) (rs : List Route)
    (h : registerTools ts = some rs)
    (hnd : (ts.map ToolRec.name).Nodup) :
    rs.map Route.path = ts.map (fun t => "/" ++ t.name)
    ∧ (∀ r ∈ rs, r.method = "POST")
    ∧ (∀ t ∈ ts, (rs.filter (fun r => r.tool = t.name)).length = 1)
    ∧ (∀ output, handleResultLine (some (encode (Message.result output)))
          = EndpointResult.ok output
        ∧ statusOf (handleResultLine (some (encode (Message.result output))))
          = some 200) := by
  obtain ⟨hm, hp, hmeth⟩ := registerTools_maps h
  refine ⟨hp, hmeth, ?_, fun output => ⟨rfl, rfl⟩⟩
  intro t ht
  rw [filter_length_map Route.tool rs t.name, hm]
  exact count_filter_eq_one hnd (List.mem_map_of_mem ToolRec.name ht)

/-- Tool advertised by `weather-server/server.py`. -/
def forecastTool : ToolRec :=
  ⟨"get-forecast",
   Json.obj [("type", Json.str "object"),
             ("properties", Json.obj [("location",
                 Json.obj [("type", Json.str "string")])]),
             ("required", Json.arr [Json.str "location"])],
   Json.obj [("type", Json.str "object"),
             ("properties", Json.obj [("location",
                 Json.obj [("type", Json.str "string")]),
               ("forecast", Json.obj [("type", Json.str "string")])])]⟩

/-- Tool advertised by `time-tool/tool.py`. -/
def timeTool : ToolRec :=
  ⟨"get-time",
   Json.obj [("type", Json.str "object"),
             ("properties", Json.obj [("location",
                 Json.obj [("type", Json.str "string")])]),
             ("required", Json.arr [Json.str "location"])],
   Json.obj [("type", Json.str "object"),
             ("properties", Json.obj [("location",
                 Json.obj [("type", Json.str "string")]),
               ("timezone", Json.obj [("type", Json.str "string")]),
               ("time", Json.obj [("type", Json.str "string")]),
               ("date", Json.obj [("type", Json.str "string")])])]⟩

/-- Routes registered for the two concrete tools. -/
def demoRoutes : List Route :=
  [{ method := "POST", path := "/get-forecast", tool := "get-forecast",
     requiredProps := ["location"] },
   { method := "POST", path := "/get-time", tool := "get-time",
     requiredProps := ["location"] }]

/-- C7, witness: the weather and time tools register exactly the `/get-forecast`
and `/get-time` POST routes, one each, and a concrete `tool-result` answer is
returned verbatim with status 200. -/
theorem C7_witness :
    demoRoutes.map Route.path = ["/get-forecast", "/get-time"]
    ∧ (demoRoutes.filter (fun r => r.tool = "get-forecast")).length = 1
    ∧ handleResultLine (some (encode (Message.result (Json.str "sunny"))))
        = EndpointResult.ok (Json.str "sunny") := by
  obtain ⟨h1, _, h3, h4⟩ :=
    C7_one_endpoint_per_tool [forecastTool, timeTool] demoRoutes rfl
      (by simp [forecastTool, timeTool])
  exact ⟨h1, h3 forecastTool (by simp), (h4 (Json.str "sunny")).1⟩

/-- Helper: equal mapped lists agree projection-wise at every position. -/
lemma map_eq_map_get {α β γ : Type} (f : α → γ) (g : β → γ) {l1 : List α}
    {l2 : List β} (h : l1.map f = l2.map g) (i : Nat) (h1 : i < l1.length)
    (h2 : i < l2.length) : f (l1.get ⟨i, h1⟩) = g (l2.get ⟨i, h2⟩) := by
  induction l1 generalizing l2 i with
  | nil => exact absurd h1 (Nat.not_lt_zero i)
  | cons a rest ih =>
      cases l2 with
      | nil => exact absurd h2 (Nat.not_lt_zero i)
      | cons b rest2 =>
          simp only [List.map_cons, List.cons.injEq] at h
          cases i with
          | zero => exact h.1
          | succ n =>
              exact ih h.2 n (Nat.lt_of_succ_lt_succ h1) (Nat.lt_of_succ_lt_succ h2)

/-- C9: the endpoint registered for the i-th discovered tool captures that
tool's own name (the per-iteration default-argument binding `tool=tool_name`),
and the single `tool-call` message it writes carries exactly that name in its
`tool` field — endpoint i never sends the name of tool j for j ≠ i. -/
theorem C9_tool_name_capture (ts : List ToolRec) (rs : List Route) (i : Nat)
    (h : registerTools ts = some rs) (hi : i < rs.length) (hi' : i < ts.length) :
    (rs.get ⟨i, hi⟩).tool = (ts.get ⟨i, hi'⟩).name
    ∧ (∀ (fields : List (String × String)) (d : Option Json)
         (rest : List (Option Json)),
        (tool_endpoint (rs.get ⟨i, hi⟩).tool fields (d :: rest)).2
          = [Effect.spawn,
             Effect.write (mkToolCall (ts.get ⟨i, hi'⟩).name fields)])
    ∧ (∀ (tool : String) (fields : List (String × String)),
        jget (mkToolCall tool fields) "tool" = some (Json.str tool)) := by
  have hname : (rs.get ⟨i, hi⟩).tool = (ts.get ⟨i, hi'⟩).name :=
    map_eq_map_get Route.tool ToolRec.name (registerTools_maps h).1 i hi hi'
  refine ⟨hname, ?_, fun tool fields => rfl⟩
  intro fields d rest
  rw [hname]
  cases rest with
  | nil => rfl
  | cons l rest' => rfl

/-- C9, witness: for the two demo tools, the second endpoint captures
`get-time` and its call message names `get-time`. -/
theorem C9_witness :
    (demoRoutes.get ⟨1, by simp [demoRoutes]⟩).tool
      = ([forecastTool, timeTool].get ⟨1, by simp⟩).name
    ∧ jget (mkToolCall "get-time" [("location", "Tokyo")]) "tool"
      = some (Json.str "get-time") := by
  obtain ⟨h1, _, h3⟩ :=
    C9_tool_name_capture [forecastTool, timeTool] demoRoutes 1 rfl
      (by simp [demoRoutes]) (by simp)
  exact ⟨h1, h3 "get-time" [("location", "Tokyo")]⟩

/-- Helper: when every binding a field binder produces keeps its own name,
the bound field list's keys are exactly the required names, in order. -/
lemma mapM_fst {f : String → Option (String × String)}
    (hf : ∀ n x, f n = some x → x.1 = n) :
    ∀ {req : List String} {fields : List (String × String)},
      req.mapM f = some fields → fields.map Prod.fst = req := by
  intro req
  induction req with
  | nil =>
      intro fields h
      simp only [List.mapM_nil, Option.pure_def, Option.some.injEq] at h
      subst h
      rfl
  | cons a rest ih =>
      intro fields h
      rw [List.mapM_cons] at h
      cases hfa : f a with
      | none => rw [hfa] at h; exact absurd h (by simp)
      | some x =>
          rw [hfa] at h
          cases hrest : rest.mapM f with
          | none => rw [hrest] at h; exact absurd h (by simp)
          | some xs =>
              rw [hrest] at h
              have hfields : fields = x :: xs := by
                cases h
                rfl
              subst hfields
              simp only [List.map_cons, hf a x hfa, ih hrest]

/-- Helper: the fields bound by validation carry exactly the required names,
in declaration order. -/
lemma validateBody_keys {req : List String} {body : Json}
    {fields : List (String × String)}
    (h : validateBody req body = some fields) : fields.map Prod.fst = req := by
  cases body with
  | obj bf =>
      simp only [validateBody] at h
      refine mapM_fst ?_ h
      intro n x hx
      cases hj : jget (Json.obj bf) n with
      | none => rw [hj] at hx; exact absurd hx (by simp)
      | some v =>
          rw [hj] at hx
          cases v with
          | str s =>
              simp only [Option.some.injEq] at hx
              rw [← hx]
          | num m => exact absurd hx (by simp)
          | bool b => exact absurd hx (by simp)
          | null => exact absurd hx (by simp)
          | arr l => exact absurd hx (by simp)
          | obj o => exact absurd hx (by simp)
  | str s => exact absurd h (by simp [validateBody])
  | num n => exact absurd h (by simp [validateBody])
  | bool b => exact absurd h (by simp [validateBody])
  | null => exact absurd h (by simp [validateBody])
  | arr l => exact absurd h (by simp [validateBody])

/-- C10: for every accepted request, the `input` mapping of the `tool-call`
sent to the subprocess binds exactly the route's synthesized properties (the
tool's declared string-typed inputs) and nothing else: undeclared body keys
are dropped, and a declared non-string property never appears among the
forwarded keys. -/
theorem C10_forwarded_input_exact (t : ToolRec) (r : Route)
    (props : List (String × Json)) (body : Json)
    (fields : List (String × String))
    (hprops : jget t.input_schema "properties" = some (Json.obj props))
    (hnd : (props.map Prod.fst).Nodup)
    (hr : registerTool t = some r)
    (hv : validateBody r.requiredProps body = some fields) :
    (fields.map (fun p => (p.1, Json.str p.2))).map Prod.fst = r.requiredProps
    ∧ (∀ tool, jget (mkToolCall tool fields) "input"
        = some (Json.obj (fields.map (fun p => (p.1, Json.str p.2)))))
    ∧ (∀ p ∈ props, jget p.2 "type" ≠ some (Json.str "string") →
        p.1 ∉ fields.map Prod.fst)
    ∧ (∀ k, k ∉ r.requiredProps → k ∉ fields.map Prod.fst) := by
  have hkeys : fields.map Prod.fst = r.requiredProps := validateBody_keys hv
  refine ⟨?_, fun tool => rfl, ?_, ?_⟩
  · rw [← hkeys]
    simp [List.map_map]
  · intro p hp hnotstr
    rw [hkeys]
    exact registerTool_nonstring_not_mem hprops hnd hr p hp hnotstr
  · intro k hk
    rw [hkeys]
    exact hk

/-- C10, witness: a `/get-forecast` request whose body carries `location` and
an undeclared `debug` key forwards exactly the `location` binding. -/
theorem C10_witness :
    ([("location", "Paris")].map
        (fun p : String × String => (p.1, Json.str p.2))).map Prod.fst
      = ["location"]
    ∧ jget (mkToolCall "get-forecast" [("location", "Paris")]) "input"
      = some (Json.obj [("location", Json.str "Paris")]) := by
  obtain ⟨h1, h2, _, _⟩ :=
    C10_forwarded_input_exact forecastTool
      { method := "POST", path := "/get-forecast", tool := "get-forecast",
        requiredProps := ["location"] }
      [("location", Json.obj [("type", Json.str "string")])]
      (Json.obj [("location", Json.str "Paris"), ("debug", Json.bool true)])
      [("location", "Paris")]
      rfl (by simp) rfl rfl
  exact ⟨h1, h2 "get-forecast"⟩

/-- Helper: a reader-thread step preserves a call's consistency with its own
subprocess's emissions. -/
lemma consistent_readerStep {e : List (Option Json)} {c : CallState}
    (h : consistent e c) : consistent e (readerStep c) := by
  cases c with
  | mk pending buffer phase =>
      cases pending with
      | nil => simpa [readerStep] using h
      | cons l rest =>
          cases phase with
          | waitDesc =>
              simp only [consistent, readerStep] at h ⊢
              rw [← h]
              simp
          | waitResult =>
              simp only [consistent, readerStep] at h ⊢
              obtain ⟨d, hd⟩ := h
              exact ⟨d, by rw [hd]; simp⟩
          | done r =>
              simp only [consistent, readerStep] at h ⊢
              exact h

/-- Helper: a bridge step (spinning, or popping the description or the
result) preserves a call's consistency with its own subprocess's emissions. -/
lemma consistent_bridgeStep {e : List (Option Json)} {c : CallState}
    (h : consistent e c) : consistent e (bridgeStep c) := by
  cases c with
  | mk pending buffer phase =>
      cases phase with
      | waitDesc =>
          cases buffer with
          | nil => simpa [bridgeStep] using h
          | cons d rest =>
              simp only [consistent, bridgeStep] at h ⊢
              exact ⟨d, by rw [← h]; simp⟩
      | waitResult =>
          cases buffer with
          | nil => simpa [bridgeStep] using h
          | cons l rest =>
              simp only [consistent, bridgeStep] at h ⊢
              obtain ⟨d, hd⟩ := h
              exact ⟨d, l, rest ++ pending, by rw [hd]; simp, rfl⟩
      | done r => simpa [bridgeStep] using h

/-- Joint consistency: each in-flight call is consistent with its own
subprocess's emissions. -/
def jointConsistent (e1 e2 : List (Option Json))
    (st : CallState × CallState) : Prop :=
  consistent e1 st.1 ∧ consistent e2 st.2

/-- Helper: every interleaved step — of either call's reader or bridge logic —
preserves joint consistency, because each step touches only its own call's
state. -/
lemma jointStep_consistent {e1 e2 : List (Option Json)}
    {st : CallState × CallState} (s : SchedStep)
    (h : jointConsistent e1 e2 st) :
    jointConsistent e1 e2 (jointStep s st) := by
  obtain ⟨h1, h2⟩ := h
  cases s with
  | readerA => exact ⟨consistent_readerStep h1, h2⟩
  | bridgeA => exact ⟨consistent_bridgeStep h1, h2⟩
  | readerB => exact ⟨h1, consistent_readerStep h2⟩
  | bridgeB => exact ⟨h1, consistent_bridgeStep h2⟩

/-- Helper: joint consistency is preserved along any whole schedule. -/
lemma runSched_consistent (sched : List SchedStep) {e1 e2 : List (Option Json)}
    {st : CallState × CallState} (h : jointConsistent e1 e2 st) :
    jointConsistent e1 e2 (runSched sched st) := by
  induction sched generalizing st with
  | nil => exact h
  | cons s rest ih => exact ih (jointStep_consistent s h)

/-- Helper: a consistent call that has finished holds exactly the response
determined by its own subprocess's emissions. -/
lemma consistent_done {e : List (Option Json)} {c : CallState}
    {r : EndpointResult} (h : consistent e c) (hd : c.phase = Phase.done r) :
    pureOutcome e = some r := by
  cases c with
  | mk pending buffer phase =>
      subst hd
      simp only [consistent] at h
      obtain ⟨d, rl, rest, he, hr⟩ := h
      rw [he, hr]
      rfl

/-- C8: under every interleaving of two concurrent endpoint calls, a call
that completes returns exactly the outcome determined by the lines its own
subprocess emitted — independent of the other call's subprocess, input and
scheduling, so results are never cross-delivered between the two calls. -/
theorem C8_no_cross_delivery (e1 e2 : List (Option Json))
    (sched : List SchedStep) (r1 r2 : EndpointResult) :
    ((runSched sched (initCall e1, initCall e2)).1.phase = Phase.done r1 →
      pureOutcome e1 = some r1)
    ∧ ((runSched sched (initCall e1, initCall e2)).2.phase = Phase.done r2 →
      pureOutcome e2 = some r2) := by
  have hinit : jointConsistent e1 e2 (initCall e1, initCall e2) :=
    ⟨by simp [consistent, initCall], by simp [consistent, initCall]⟩
  have hfin := runSched_consistent sched hinit
  exact ⟨fun h => consistent_done hfin.1 h, fun h => consistent_done hfin.2 h⟩

/-- Emissions of call A's subprocess in the C8 witness. -/
def c8EmitA : List (Option Json) :=
  [some c3Desc, some (encode (Message.result (Json.str "forecast-A")))]

/-- Emissions of call B's subprocess in the C8 witness. -/
def c8EmitB : List (Option Json) :=
  [some c3Desc, some (encode (Message.result (Json.str "time-B")))]

/-- A fully interleaved schedule of the two calls in the C8 witness. -/
def c8Sched : List SchedStep :=
  [SchedStep.readerA, SchedStep.readerB, SchedStep.bridgeA, SchedStep.bridgeB,
   SchedStep.readerA, SchedStep.readerB, SchedStep.bridgeA, SchedStep.bridgeB]

/-- C8, witness: under the concrete interleaving both calls complete, and
each returns its own subprocess's output. -/
theorem C8_witness :
    pureOutcome c8EmitA = some (EndpointResult.ok (Json.str "forecast-A"))
    ∧ pureOutcome c8EmitB = some (EndpointResult.ok (Json.str "time-B")) :=
  ⟨(C8_no_cross_delivery c8EmitA c8EmitB c8Sched
      (EndpointResult.ok (Json.str "forecast-A"))
      (EndpointResult.ok (Json.str "time-B"))).1 rfl,
   (C8_no_cross_delivery c8EmitA c8EmitB c8Sched
      (EndpointResult.ok (Json.str "forecast-A"))
      (EndpointResult.ok (Json.str "time-B"))).2 rfl⟩

end MCPBridge

namespace MCPBridge

/-- C4: decoding the encoded line gives back the same message, for every
message of every protocol kind (round-trip law of the codec). -/
theorem C4_codec_round_trip (m : Message) : decode (encode m) = Except.ok m := by
  cases m <;> rfl

end MCPBridge
